import Mathlib

/-!
Verification of the metadata-cache pipeline (`src/cache/`): a shallow
embedding of `cache_base.py` (incremental refresh, checkpoint store, full
build) together with the blog adapter (`blog_cache.py`) and the slug helpers
of the other entity adapters, followed by theorems settling the specified
properties against these definitions.
-/

namespace CachePipeline

/-- A value stored in one column of a cache-table row: an integer, a string,
the shared `last_updated` timestamp of the run, or SQL NULL. -/
inductive Value where
  | int (n : Int)
  | str (s : String)
  | time (t : Nat)
  | null
deriving DecidableEq, Repr

/-- An optional string column: `None` becomes SQL NULL. -/
def optStr : Option String → Value
  | some s => .str s
  | none => .null

/-- The characters matched by Python's regex `\s` on ASCII text. -/
def isPySpace (c : Char) : Bool :=
  c = ' ' || c = '\t' || c = '\n' || c = '\r' || c = '\x0b' || c = '\x0c'

/-- Embedding of `re.sub(r"\s+", "-", text)`: replace every maximal run of whitespace
characters by a single hyphen.  The boolean state records whether the
previous character was part of a whitespace run already replaced. -/
def reSubWsAux : Bool → List Char → List Char
  | _, [] => []
  | inRun, c :: cs =>
    if isPySpace c then
      if inRun then reSubWsAux true cs else '-' :: reSubWsAux true cs
    else c :: reSubWsAux false cs

/-- Embedding of `re.sub(r"\s+", "-", text)` on a whole character list. -/
def reSubWs (l : List Char) : List Char := reSubWsAux false l

namespace BlogCache

/-- Embedding of `BlogCache._create_slug` (`blog_cache.py` lines 46-52):
`text.lower().replace("?", "")` then `re.sub(r"\s+", "-", text)`,
with the id appended as `f"{text}-{id_}"` when present. -/
def _create_slug (text : String) (id? : Option Int) : String :=
  let t1 := (text.data.map Char.toLower).filter (fun c => ¬ (c = '?'))
  let t2 := String.mk (reSubWs t1)
  match id? with
  | none => t2
  | some i => t2 ++ "-" ++ toString i

end BlogCache

namespace PostCache

/-- Embedding of `PostCache._create_slug` (`post_cache.py` lines 51-57): identical body to
the blog adapter's, including the `.replace("?", "")`. -/
def _create_slug (text : String) (id? : Option Int) : String :=
  let t1 := (text.data.map Char.toLower).filter (fun c => ¬ (c = '?'))
  let t2 := String.mk (reSubWs t1)
  match id? with
  | none => t2
  | some i => t2 ++ "-" ++ toString i

end PostCache

namespace CompanyCache

/-- Embedding of `CompanyCache._create_slug` (`company_cache.py` lines 59-65):
`text.lower()` then `re.sub(r"\s+", "-", text)` — note there is no
`.replace("?", "")` step in this adapter. -/
def _create_slug (text : String) (id? : Option Int) : String :=
  let t1 := text.data.map Char.toLower
  let t2 := String.mk (reSubWs t1)
  match id? with
  | none => t2
  | some i => t2 ++ "-" ++ toString i

end CompanyCache

/-- JSON string escaping as performed by `ujson.dumps` on the plain
characters that can appear in the values (backslash and double quote). -/
def jsonEscape (s : String) : String :=
  String.mk (s.data.flatMap fun c =>
    if c = '\\' then ['\\', '\\']
    else if c = '"' then ['\\', '"']
    else [c])

/-- A category record `{id, name}` as returned by the aggregated source
query (`jsonb_build_object('id', cat.id, 'name', cat.name)`). -/
structure Category where
  id : Int
  name : String
deriving DecidableEq, Repr

/-- Encoding by `ujson.dumps` of one `{"id": .., "name": .., "slug": ..}` object built in
`BlogCache.create_json_data`, keys in insertion order. -/
def categoryJson (slugOf : String → String) (cat : Category) : String :=
  "\x7b\"id\":" ++ toString cat.id ++ ",\"name\":\"" ++ jsonEscape cat.name ++
    "\",\"slug\":\"" ++ jsonEscape (slugOf cat.name) ++ "\"\x7d"

/-- Encoding by `ujson.dumps` of the category object list. -/
def ujsonDumpsCategories (slugOf : String → String) (cats : List Category) : String :=
  "[" ++ String.intercalate "," (cats.map (categoryJson slugOf)) ++ "]"

/-- A calendar date, as the `created_at` column of the source row. -/
structure PyDate where
  month : Nat
  day : Nat
  year : Nat
deriving DecidableEq, Repr

/-- Zero-pad to two digits. -/
def pad2 (n : Nat) : String := if n < 10 then "0" ++ toString n else toString n

/-- Zero-pad to four digits. -/
def pad4 (n : Nat) : String :=
  if n < 10 then "000" ++ toString n
  else if n < 100 then "00" ++ toString n
  else if n < 1000 then "0" ++ toString n
  else toString n

/-- Embedding of Python `date.strftime("%m-%d-%Y")`. -/
def strftime_mdY (d : PyDate) : String :=
  pad2 d.month ++ "-" ++ pad2 d.day ++ "-" ++ pad4 d.year

/-- One denormalized row returned by the blog metadata-cache source query
(`blog_cache.py` `get_metadata_cache_query`): `id, title, excerpt, content,
featured_image, author_name, created_at, categories`, where `categories` is
NULL when the blog has no linked categories (LEFT JOIN against the
`blog_categories` aggregation CTE). -/
structure BlogRow where
  id : Int
  title : String
  excerpt : Option String
  content : String
  featured_image : Option String
  author_name : Option String
  created_at : Option PyDate
  categories : Option (List Category)
deriving DecidableEq, Repr

namespace BlogCache

/-- Embedding of `BlogCache.create_json_data` (`blog_cache.py` lines 80-113): the tuple of
column values `(id, title, slug, excerpt, content, featured_image, author,
created_at, categories)` derived from one source row.  `created_at` is
reformatted as `%m-%d-%Y`; `categories` is `ujson.dumps` of the
`{id, name, slug}` objects when present and `None` otherwise. -/
def create_json_data (row : BlogRow) : List Value :=
  let slug := _create_slug row.title none
  let created_at := row.created_at.map strftime_mdY
  [ .int row.id,
    .str row.title,
    .str slug,
    optStr row.excerpt,
    .str row.content,
    optStr row.featured_image,
    optStr row.author_name,
    optStr created_at,
    optStr (row.categories.map fun cats =>
      ujsonDumpsCategories (fun t => _create_slug t none) cats) ]

end BlogCache

/-- A database effect issued by the cache code, in issue order. -/
inductive Event where
  | runMetadataQuery (ids : List Int)
  | deleteRows (keys : List Value)
  | insertRows (rows : List (List Value))
  | commit
  | runDirtyQuery
  | captureTimestamp (t : Nat)
  | runFullBuild
  | writeCheckpoint (key : String) (t : Nat)
  | logMessage
deriving DecidableEq, Repr

/-- A psycopg2 error class raised by a query execution. -/
inductive PgError where
  | operational
  | undefinedTable
  | otherProgramming
deriving DecidableEq, Repr

/-- An exception that aborts a run. -/
inductive RunError where
  | zeroDivision
  | pg (e : PgError)
deriving DecidableEq, Repr

/-- The outcome of one cache procedure: the database effects it issued, and
the exception that escaped it, if any. -/
structure RunResult where
  events : List Event
  err : Option RunError
deriving DecidableEq, Repr

namespace BlogCache

/-- The delete-key list extracted from a completed batch:
`batch_recording_mbids = [row[2] for row in rows]` (`cache_base.py` lines
115 and 126) — index 2 of the tuple `(last_updated, *create_json_data(row))`. -/
def batchKeys (rows : List (List Value)) : List Value :=
  rows.map (fun r => r.getD 2 .null)

/-- The row loop of `EntityMetadataCache.update_dirty_cache_items`
(`cache_base.py` lines 106-129): accumulate transformed tuples, and on every
full batch delete by `batchKeys`, insert the batch, commit, then log a
percentage whose denominator is `total_rows` (a ZeroDivisionError when the
dirty-id list was empty); a trailing partial batch is flushed after the
loop without that log. -/
def processLoop (lastUpdated batchSize totalRows : Nat) :
    List BlogRow → List (List Value) → RunResult
  | [], acc =>
    if acc.isEmpty then ⟨[], none⟩
    else ⟨[.deleteRows (batchKeys acc), .insertRows acc, .commit], none⟩
  | r :: rs, acc =>
    let tuple := Value.time lastUpdated :: create_json_data r
    let acc' := acc ++ [tuple]
    if batchSize ≤ acc'.length then
      let flush : List Event := [.deleteRows (batchKeys acc'), .insertRows acc', .commit]
      if totalRows = 0 then ⟨flush, some .zeroDivision⟩
      else
        let rest := processLoop lastUpdated batchSize totalRows rs []
        ⟨flush ++ rest.events, rest.err⟩
    else processLoop lastUpdated batchSize totalRows rs acc'

/-- Embedding of `EntityMetadataCache.update_dirty_cache_items` (`cache_base.py` lines
88-135) specialised to the blog adapter: run the metadata query over the
dirty ids, process the returned rows in batches, and finish with a log line
computing `100 * count / total_rows` — a ZeroDivisionError when `ids` is
empty.  `queryRows` abstracts the rows the source query returns for the
dirty ids. -/
def update_dirty_cache_items (lastUpdated batchSize : Nat) (ids : List Int)
    (queryRows : List BlogRow) : RunResult :=
  let res := processLoop lastUpdated batchSize ids.length queryRows []
  let events := Event.runMetadataQuery ids :: res.events
  match res.err with
  | some e => ⟨events, some e⟩
  | none =>
    if ids.length = 0 then ⟨events, some .zeroDivision⟩
    else ⟨events, none⟩

end BlogCache

/-- The id column of a cache-table row: index 1 of the stored tuple
`(last_updated, id, title, ...)` per `get_create_table_columns`. -/
def idColumn (row : List Value) : Value := row.getD 1 .null

/-- An error raised by the destination database while executing a
statement. -/
inductive DbError where
  | invalidTextRepresentation
  | uniqueViolation
deriving DecidableEq, Repr

/-- Accumulate a digit run into a natural number. -/
def digitsToNat : List Char → Nat → Nat
  | [], n => n
  | c :: cs, n => digitsToNat cs (n * 10 + (c.toNat - '0'.toNat))

/-- The unsigned tail of a Postgres integer literal: a nonempty digit run,
optionally followed by spaces. -/
def pgParseIntCore (l : List Char) : Option Nat :=
  let digits := l.takeWhile Char.isDigit
  let rest := l.dropWhile Char.isDigit
  if digits.isEmpty then none
  else if rest.all (fun c => c = ' ') then some (digitsToNat digits 0)
  else none

/-- Parsing of a string literal as Postgres `integer` input: optional
surrounding spaces, an optional sign, then digits; anything else raises
"invalid input syntax for type integer". -/
def pgParseInt (s : String) : Option Int :=
  let l := s.data.dropWhile (fun c => c = ' ')
  match l with
  | '-' :: r => (pgParseIntCore r).map (fun n => -(n : Int))
  | '+' :: r => (pgParseIntCore r).map (fun n => (n : Int))
  | _ => (pgParseIntCore l).map (fun n => (n : Int))

/-- Coercion of one delete-statement key to the type of the `id` column, as
Postgres performs it inside `WHERE id IN (...)` against an integer column:
integers pass through, NULL compares to nothing, and a string literal must
parse as an integer — otherwise the statement errors. -/
def coerceKey : Value → Except DbError (Option Int)
  | .int n => .ok (some n)
  | .time t => .ok (some (Int.ofNat t))
  | .null => .ok none
  | .str s =>
    match pgParseInt s with
    | some n => .ok (some n)
    | none => .error .invalidTextRepresentation

/-- Coercion of the whole key list; the statement fails on the first key
that cannot be coerced. -/
def coerceKeys : List Value → Except DbError (List (Option Int))
  | [] => .ok []
  | k :: ks =>
    match coerceKey k with
    | .error e => .error e
    | .ok n =>
      match coerceKeys ks with
      | .error e => .error e
      | .ok ns => .ok (n :: ns)

/-- Execution of `DELETE FROM {table} WHERE id IN %s` (`blog_cache.py`
line 211): every key is coerced to the integer `id` column's type (erroring
on a non-numeric string), then the rows whose id is among the coerced keys
are removed. -/
def deleteByIds (t : List (List Value)) (keys : List Value) :
    Except DbError (List (List Value)) :=
  match coerceKeys keys with
  | .error e => .error e
  | .ok ks =>
    .ok (t.filter fun r =>
      match idColumn r with
      | .int n => ! ks.contains (some n)
      | _ => true)

/-- Modelled from the spec: execution of the insert.  `cache.utils.insert_rows`
is not under `src/` — §4.1 of the spec: "insert_rows(rows) → appends rows" —
but the table's DDL in src declares `id` as `SERIAL PRIMARY KEY`
(`blog_cache.py` `get_create_table_columns`), so an inserted id that collides
with an existing row, or a duplicate within the batch, raises a unique
violation instead of appending. -/
def insertWithPK (t rs : List (List Value)) : Except DbError (List (List Value)) :=
  if ((t ++ rs).map idColumn).Nodup then .ok (t ++ rs)
  else .error .uniqueViolation

/-- State of the destination connection while the issued statements run: the
table as of the last commit, the table including the open transaction's
effects, and the first statement error — after an error the transaction is
aborted and later statements are not executed. -/
structure DbState where
  committed : List (List Value)
  current : List (List Value)
  err : Option DbError
deriving DecidableEq, Repr

/-- One issued event against the destination connection: deletes and inserts
act on the open transaction and record the first error, `commit` makes the
transaction durable, everything else touches no table. -/
def applyEvent (s : DbState) : Event → DbState
  | .deleteRows keys =>
    match s.err with
    | some _ => s
    | none =>
      match deleteByIds s.current keys with
      | .ok t => { s with current := t }
      | .error e => { s with err := some e }
  | .insertRows rs =>
    match s.err with
    | some _ => s
    | none =>
      match insertWithPK s.current rs with
      | .ok t => { s with current := t }
      | .error e => { s with err := some e }
  | .commit =>
    match s.err with
    | some _ => s
    | none => { s with committed := s.current }
  | _ => s

/-- Execution of a whole event trace: the visible table afterwards (on an
error the open transaction is rolled back, leaving the last committed
state) together with the error, if one was raised. -/
def execEvents (t : List (List Value)) (evs : List Event) :
    List (List Value) × Option DbError :=
  let s := evs.foldl applyEvent ⟨t, t, none⟩
  match s.err with
  | some e => (s.committed, some e)
  | none => (s.current, none)

/-- The visible destination cache table after the issued events. -/
def applyEvents (t : List (List Value)) (evs : List Event) : List (List Value) :=
  (execEvents t evs).1

/-- Look up the value stored for a key in the `background_worker_state`
table (`SELECT value FROM background_worker_state WHERE key = {key}`). -/
def findValue (key : String) : List (String × Nat) → Option Nat
  | [] => none
  | p :: ps => if p.1 = key then some p.2 else findValue key ps

/-- Embedding of `select_metadata_cache_timestamp` (`cache_base.py` lines 138-157):
`None` when the `background_worker_state` table is missing (the caught
`UndefinedTable`) and `None` when no row exists for the key; otherwise the
stored timestamp.  Timestamps are modelled as naturals; the
isoformat/fromisoformat round trip is the identity. -/
def select_metadata_cache_timestamp (bws : Option (List (String × Nat)))
    (key : String) : Option Nat :=
  match bws with
  | none => none
  | some t =>
    match findValue key t with
    | none => none
    | some v => some v

/-- Embedding of the `INSERT .. ON CONFLICT (key) DO UPDATE SET value` upsert of
`update_metadata_cache_timestamp` (`cache_base.py` lines 160-175). -/
def upsert (t : List (String × Nat)) (key : String) (v : Nat) :
    List (String × Nat) :=
  if t.any (fun p => p.1 = key) then
    t.map (fun p => if p.1 = key then (key, v) else p)
  else t ++ [(key, v)]

/-- Embedding of `update_metadata_cache_timestamp` (`cache_base.py` lines 160-175): upsert
the key's value; raises `UndefinedTable` when the table is missing (nothing
catches it there). -/
def update_metadata_cache_timestamp (bws : Option (List (String × Nat)))
    (key : String) (ts : Nat) : Except RunError (List (String × Nat)) :=
  match bws with
  | none => .error (.pg .undefinedTable)
  | some t => .ok (upsert t key ts)

namespace BlogCache

/-- Embedding of `BlogCache.query_last_updated_items` (`blog_cache.py` lines 172-208):
collect the returned ids into a set; `psycopg2.errors.OperationalError`
alone is caught (log, return the empty set) — every other error class
propagates.  `queryResult` abstracts the execution of the dirty-id SQL. -/
def query_last_updated_items (queryResult : Except PgError (List Int)) :
    Except PgError (List Int) :=
  match queryResult with
  | .ok rows => .ok rows.dedup
  | .error .operational => .ok []
  | .error e => .error e

end BlogCache

/-- The visible state of the two databases: the destination cache table
(`none` when it does not exist), the `background_worker_state` checkpoint
table (`none` when it does not exist), and a wall clock read by
`datetime.now()`. -/
structure World where
  cacheTable : Option (List (List Value))
  bws : Option (List (String × Nat))
  clock : Nat
deriving DecidableEq, Repr

/-- The outcome of one top-level run: the world afterwards, the database
effects issued, and the exception that escaped, if any. -/
structure TopResult where
  world : World
  events : List Event
  err : Option RunError
deriving DecidableEq, Repr

/-- Embedding of `incremental_update_metadata_cache` (`cache_base.py` lines 207-242) for
the blog adapter: existence check on the cache table (`table_exists` — its
file `cache/bulk_table.py` is not under `src/`; modelled from the spec §4.1
as a boolean precondition, here the presence of the table), checkpoint read
(`if not timestamp: return`), `new_timestamp = datetime.now()`, dirty-id
query, `update_dirty_cache_items`, the empty-set check, and the checkpoint
write.  `dirtyResult` abstracts the dirty-id SQL execution and `queryRows`
the metadata query's rows for those ids. -/
def incremental_update_metadata_cache (key : String) (w : World)
    (dirtyResult : Except PgError (List Int)) (queryRows : List BlogRow)
    (batchSize : Nat) : TopResult :=
  match w.cacheTable with
  | none => ⟨w, [.logMessage], none⟩
  | some tbl =>
    match select_metadata_cache_timestamp w.bws key with
    | none => ⟨w, [.logMessage], none⟩
    | some _ts =>
      let newTimestamp := w.clock
      match BlogCache.query_last_updated_items dirtyResult with
      | .error e => ⟨w, [.runDirtyQuery], some (.pg e)⟩
      | .ok ids =>
        let res := BlogCache.update_dirty_cache_items newTimestamp batchSize ids queryRows
        let w1 : World := { w with cacheTable := some (applyEvents tbl res.events) }
        let evs := Event.runDirtyQuery :: res.events
        match res.err with
        | some e => ⟨w1, evs, some e⟩
        | none =>
          if ids.length = 0 then ⟨w1, evs, none⟩
          else
            match update_metadata_cache_timestamp w1.bws key newTimestamp with
            | .error e => ⟨w1, evs, some e⟩
            | .ok t =>
              ⟨{ w1 with bws := some t },
                evs ++ [.writeCheckpoint key newTimestamp], none⟩

/-- Embedding of `create_metadata_cache` (`cache_base.py` lines 178-204): check every
required table (`table_exists` from `cache/bulk_table.py`, not under `src/`;
modelled from the spec §4.1 as the list of existence booleans `reqs`) and
return on the first missing one; otherwise capture
`new_timestamp = datetime.now()`, run the full build (`BulkInsertTable.run`,
also not under `src/`; modelled from the spec §4.2 as replacing the cache
table with the built rows while the clock advances by the build's duration),
then write the captured timestamp as the checkpoint. -/
def create_metadata_cache (key : String) (w : World) (reqs : List Bool)
    (builtRows : List (List Value)) (buildDuration : Nat) : TopResult :=
  if reqs.all (fun b => b) then
    let newTimestamp := w.clock
    let w1 : World := { w with cacheTable := some builtRows,
                               clock := w.clock + buildDuration }
    let evs : List Event := [.captureTimestamp newTimestamp, .runFullBuild]
    match update_metadata_cache_timestamp w1.bws key newTimestamp with
    | .error e => ⟨w1, evs, some e⟩
    | .ok t =>
      ⟨{ w1 with bws := some t },
        evs ++ [.writeCheckpoint key newTimestamp], none⟩
  else ⟨w, [.logMessage], none⟩

/-- One run in a sequence: time passing, a full build, or an incremental
update. -/
inductive RunOp where
  | advanceClock (d : Nat)
  | full (key : String) (reqs : List Bool) (builtRows : List (List Value))
      (buildDuration : Nat)
  | incr (key : String) (dirtyResult : Except PgError (List Int))
      (queryRows : List BlogRow) (batchSize : Nat)

/-- Execute one run against the world. -/
def execOp (w : World) : RunOp → World
  | .advanceClock d => { w with clock := w.clock + d }
  | .full key reqs rows dur => (create_metadata_cache key w reqs rows dur).world
  | .incr key dr qr bs => (incremental_update_metadata_cache key w dr qr bs).world

/-- Execute a sequence of runs. -/
def execOps (w : World) (ops : List RunOp) : World :=
  ops.foldl execOp w

/-- The key lists handed to the delete statement, batch by batch. -/
def deletedKeyLists (evs : List Event) : List (List Value) :=
  evs.filterMap fun e =>
    match e with
    | .deleteRows ks => some ks
    | _ => none

/-- The id-column values of the inserted rows, batch by batch. -/
def insertedIdLists (evs : List Event) : List (List Value) :=
  evs.filterMap fun e =>
    match e with
    | .insertRows rs => some (rs.map idColumn)
    | _ => none

/-- Events that write to the cache table or the checkpoint table. -/
def isWriteEvent : Event → Bool
  | .deleteRows _ => true
  | .insertRows _ => true
  | .writeCheckpoint _ _ => true
  | _ => false

/-- A sample source row for blog id 1, title "hello". -/
def blogRow1 : BlogRow :=
  { id := 1, title := "hello", excerpt := none, content := "body",
    featured_image := none, author_name := none, created_at := none,
    categories := none }

/-- The cache-table row that a previous run stored for blog id 1. -/
def cachedRow1 : List Value :=
  Value.time 0 :: BlogCache.create_json_data blogRow1

/-- A source row for blog id 5 whose title happens to be the numeric string
"600". -/
def blogRowA : BlogRow :=
  { id := 5, title := "600", excerpt := none, content := "body",
    featured_image := none, author_name := none, created_at := none,
    categories := none }

/-- A source row for blog id 8 whose title happens to be the numeric string
"5" — the id of another dirty blog. -/
def blogRowB : BlogRow :=
  { id := 8, title := "5", excerpt := none, content := "body",
    featured_image := none, author_name := none, created_at := none,
    categories := none }

/-- A world whose cache table holds `cachedRow1` and whose checkpoint table
has the blog key at timestamp 42, clock at 100. -/
def world1 : World :=
  { cacheTable := some [cachedRow1],
    bws := some [("blog_cache_last_update_timestamp", 42)],
    clock := 100 }

/-- A sample source row for blog id 1 carrying one linked category. -/
def blogRowCats : BlogRow :=
  { blogRow1 with categories := some [{ id := 2, name := "Ai News" }] }

/-- The categories column of the transformed tuple: index 8 of
`create_json_data`'s result `(id, title, slug, excerpt, content,
featured_image, author, created_at, categories)`. -/
def categoriesColumn (vals : List Value) : Value := vals.getD 8 .null

/-- Every timestamp stored in the checkpoint table was read from the clock
at some earlier moment, hence is at most the current clock. -/
def wfClock (w : World) : Bool :=
  match w.bws with
  | none => true
  | some t => t.all (fun p => decide (p.2 ≤ w.clock))

/-- Ordering on optional checkpoint values: an absent checkpoint precedes
everything, a present one must not decrease. -/
def ckLE : Option Nat → Option Nat → Prop
  | none, _ => True
  | some _, none => False
  | some a, some b => a ≤ b

/-- The conditions under which a run is allowed to advance the stored
checkpoint for key `k`: a full build whose required tables all exist, or an
incremental run whose dirty-id query produced at least one id. -/
def advancesCheckpoint : RunOp → String → Prop
  | .advanceClock _, _ => False
  | .full key reqs _ _, k => key = k ∧ reqs.all (fun b => b) = true
  | .incr key dr _ _, k =>
      key = k ∧ ∃ ids, BlogCache.query_last_updated_items dr = .ok ids ∧ ids ≠ []

/-- A sample sequence of runs: time passes, an incremental refresh of blog
id 1, more time passes, then a full rebuild. -/
def opsW : List RunOp :=
  [ .advanceClock 5,
    .incr "blog_cache_last_update_timestamp" (.ok [1]) [blogRow1] 3,
    .advanceClock 2,
    .full "blog_cache_last_update_timestamp" [true] [] 4 ]

/-- A world whose checkpoint table exists but carries no row for the blog
key. -/
def worldOtherKey : World :=
  { cacheTable := some [cachedRow1],
    bws := some [("other_key", 5)],
    clock := 3 }

/-- The spec's "collapse whitespace runs to single hyphens", written from
the spec's words: upon a whitespace character, emit one hyphen and skip the
remainder of that whitespace run. -/
def collapseRuns : List Char → List Char
  | [] => []
  | c :: cs =>
    if isPySpace c then '-' :: collapseRuns (cs.dropWhile (fun x => isPySpace x))
    else c :: collapseRuns cs
termination_by l => l.length
decreasing_by
  · have h := (List.dropWhile_sublist (l := cs) (fun x => isPySpace x)).length_le
    simp only [List.length_cons]
    omega
  · simp only [List.length_cons]
    omega

/-- The slug contract as the spec words it: "lowercase, strip `?`, collapse
whitespace runs to single hyphens". -/
def slug_contract (text : String) : String :=
  String.mk (collapseRuns ((text.data.map Char.toLower).filter (fun c => ¬ (c = '?'))))

example : BlogCache._create_slug "What Is AI?" none = "what-is-ai" := by decide
example : CompanyCache._create_slug "What Is AI?" none = "what-is-ai?" := by decide
example : BlogCache._create_slug "A  b" (some 7) = "a-b-7" := by decide

theorem ckLE_refl (o : Option Nat) : ckLE o o := by
  cases o <;> simp [ckLE]

theorem ckLE_trans {a b c : Option Nat} (h1 : ckLE a b) (h2 : ckLE b c) :
    ckLE a c := by
  cases a with
  | none => trivial
  | some x =>
    cases b with
    | none => exact absurd h1 (by simp [ckLE])
    | some y =>
      cases c with
      | none => exact absurd h2 (by simp [ckLE])
      | some z => exact Nat.le_trans h1 h2

theorem select_some (t : List (String × Nat)) (k : String) :
    select_metadata_cache_timestamp (some t) k = findValue k t := by
  unfold select_metadata_cache_timestamp
  cases h : findValue k t <;> simp [h]

theorem findValue_some_mem {k : String} {t : List (String × Nat)} {u : Nat}
    (h : findValue k t = some u) : ∃ p ∈ t, p.2 = u := by
  induction t with
  | nil => simp [findValue] at h
  | cons p ps ih =>
    by_cases hp : p.1 = k
    · refine ⟨p, List.mem_cons_self p ps, ?_⟩
      simp [findValue, hp] at h
      omega
    · simp only [findValue, hp, if_false] at h
      obtain ⟨q, hq, hqu⟩ := ih h
      exact ⟨q, List.mem_cons_of_mem p hq, hqu⟩

theorem findValue_map_self (t : List (String × Nat)) (key : String) (v : Nat)
    (h : t.any (fun p => p.1 = key) = true) :
    findValue key (t.map (fun p => if p.1 = key then (key, v) else p)) = some v := by
  induction t with
  | nil => simp at h
  | cons p ps ih =>
    by_cases hp : p.1 = key
    · simp [findValue, hp]
    · have h' : ps.any (fun p => p.1 = key) = true := by simpa [hp] using h
      simpa [findValue, hp] using ih h'

theorem findValue_append_self (key : String) (v : Nat) (t : List (String × Nat))
    (h : ¬ (t.any (fun p => p.1 = key) = true)) :
    findValue key (t ++ [(key, v)]) = some v := by
  induction t with
  | nil => simp [findValue]
  | cons p ps ih =>
    have hp : ¬ (p.1 = key) := by
      intro hx
      exact h (by simp [List.any_cons, hx])
    have h' : ¬ (ps.any (fun p => p.1 = key) = true) := by
      intro hx
      exact h (by simp [List.any_cons, hx])
    simpa [findValue, hp] using ih h'

theorem findValue_upsert_self (t : List (String × Nat)) (key : String) (v : Nat) :
    findValue key (upsert t key v) = some v := by
  unfold upsert
  by_cases h : t.any (fun p => p.1 = key) = true
  · rw [if_pos h]
    exact findValue_map_self t key v h
  · rw [if_neg h]
    exact findValue_append_self key v t h

theorem findValue_map_ne (t : List (String × Nat)) (key k : String) (v : Nat)
    (h : ¬ (k = key)) :
    findValue k (t.map (fun p => if p.1 = key then (key, v) else p))
      = findValue k t := by
  have hk : ¬ (key = k) := fun hx => h hx.symm
  induction t with
  | nil => rfl
  | cons p ps ih =>
    by_cases hp : p.1 = key
    · have hpk : ¬ (p.1 = k) := by rw [hp]; exact hk
      simp [findValue, hp, hk, hpk, ih]
    · by_cases hpk : p.1 = k <;> simp [findValue, hp, hpk, h, hk, ih]

theorem findValue_append_ne (t : List (String × Nat)) (key k : String) (v : Nat)
    (h : ¬ (k = key)) :
    findValue k (t ++ [(key, v)]) = findValue k t := by
  have hk : ¬ (key = k) := fun hx => h hx.symm
  induction t with
  | nil => simp [findValue, hk]
  | cons p ps ih => by_cases hpk : p.1 = k <;> simp [findValue, hpk, ih]

theorem findValue_upsert_ne (t : List (String × Nat)) (key k : String) (v : Nat)
    (h : ¬ (k = key)) : findValue k (upsert t key v) = findValue k t := by
  unfold upsert
  by_cases ha : t.any (fun p => p.1 = key) = true
  · rw [if_pos ha]
    exact findValue_map_ne t key k v h
  · rw [if_neg ha]
    exact findValue_append_ne t key k v h

theorem upsert_values_le {t : List (String × Nat)} {key : String} {v c : Nat}
    (ht : ∀ p ∈ t, p.2 ≤ c) (hv : v ≤ c) :
    ∀ p ∈ upsert t key v, p.2 ≤ c := by
  intro p hp
  unfold upsert at hp
  by_cases h : t.any (fun p => p.1 = key) = true
  · rw [if_pos h] at hp
    obtain ⟨q, hq, hqe⟩ := List.mem_map.mp hp
    by_cases hqk : q.1 = key
    · rw [if_pos hqk] at hqe
      cases hqe
      exact hv
    · rw [if_neg hqk] at hqe
      exact hqe ▸ ht q hq
  · rw [if_neg h] at hp
    rcases List.mem_append.mp hp with hp' | hp'
    · exact ht p hp'
    · simp only [List.mem_singleton] at hp'
      cases hp'
      exact hv

theorem wfClock_some {w : World} {t : List (String × Nat)} (hb : w.bws = some t) :
    wfClock w = true ↔ ∀ p ∈ t, p.2 ≤ w.clock := by
  unfold wfClock
  rw [hb]
  simp [List.all_eq_true]

theorem wfClock_bws_eq {w w' : World} (hw : wfClock w = true)
    (hb : w'.bws = w.bws) (hc : w.clock ≤ w'.clock) : wfClock w' = true := by
  unfold wfClock at hw ⊢
  rw [hb]
  cases hbw : w.bws with
  | none => rfl
  | some t =>
    rw [hbw] at hw
    simp only [List.all_eq_true, decide_eq_true_eq] at hw ⊢
    exact fun p hp => Nat.le_trans (hw p hp) hc

theorem wf_ck_unchanged (k : String) (w w' : World) (hw : wfClock w = true)
    (hb : w'.bws = w.bws) (hc : w.clock ≤ w'.clock) :
    wfClock w' = true ∧
    ckLE (select_metadata_cache_timestamp w.bws k)
      (select_metadata_cache_timestamp w'.bws k) ∧
    select_metadata_cache_timestamp w'.bws k
      = select_metadata_cache_timestamp w.bws k := by
  refine ⟨wfClock_bws_eq hw hb hc, ?_, ?_⟩
  · rw [hb]
    exact ckLE_refl _
  · rw [hb]

theorem ck_upsert (k key : String) (t : List (String × Nat)) (c v : Nat)
    (hw : ∀ p ∈ t, p.2 ≤ c) (hcv : c ≤ v) :
    ckLE (findValue k t) (findValue k (upsert t key v)) ∧
    (¬ (findValue k (upsert t key v) = findValue k t) → key = k) := by
  constructor
  · by_cases hk : k = key
    · subst hk
      rw [findValue_upsert_self]
      cases hf : findValue k t with
      | none => trivial
      | some u =>
        obtain ⟨p, hp, hpu⟩ := findValue_some_mem hf
        exact Nat.le_trans (hpu ▸ hw p hp) hcv
    · rw [findValue_upsert_ne t key k v hk]
      exact ckLE_refl _
  · intro hne
    by_cases hk : k = key
    · exact hk.symm
    · exact absurd (findValue_upsert_ne t key k v hk) hne

theorem create_clock_ge (key : String) (w : World) (reqs : List Bool)
    (rows : List (List Value)) (dur : Nat) :
    w.clock ≤ (create_metadata_cache key w reqs rows dur).world.clock := by
  unfold create_metadata_cache
  dsimp only
  split
  · split <;> dsimp only <;> omega
  · exact Nat.le_refl _

theorem create_bws_cases (key : String) (w : World) (reqs : List Bool)
    (rows : List (List Value)) (dur : Nat) :
    (create_metadata_cache key w reqs rows dur).world.bws = w.bws ∨
    (∃ t, w.bws = some t ∧ reqs.all (fun b => b) = true ∧
      (create_metadata_cache key w reqs rows dur).world.bws
        = some (upsert t key w.clock)) := by
  unfold create_metadata_cache
  dsimp only
  split
  · rename_i hreq
    split
    · left
      rfl
    · rename_i t heq
      unfold update_metadata_cache_timestamp at heq
      split at heq
      · simp at heq
      · rename_i t0 hbw
        right
        refine ⟨t0, hbw, hreq, ?_⟩
        simp only [Except.ok.injEq] at heq
        dsimp only
        rw [← heq]
  · left
    rfl

theorem incr_clock (key : String) (w : World)
    (dr : Except PgError (List Int)) (qr : List BlogRow) (bs : Nat) :
    (incremental_update_metadata_cache key w dr qr bs).world.clock = w.clock := by
  unfold incremental_update_metadata_cache
  dsimp only
  split
  · rfl
  · split
    · rfl
    · split
      · rfl
      · split
        · rfl
        · split
          · rfl
          · split <;> rfl

theorem incr_bws_cases (key : String) (w : World)
    (dr : Except PgError (List Int)) (qr : List BlogRow) (bs : Nat) :
    (incremental_update_metadata_cache key w dr qr bs).world.bws = w.bws ∨
    (∃ t ids, w.bws = some t ∧
      BlogCache.query_last_updated_items dr = .ok ids ∧ ¬ (ids.length = 0) ∧
      (incremental_update_metadata_cache key w dr qr bs).world.bws
        = some (upsert t key w.clock)) := by
  unfold incremental_update_metadata_cache
  dsimp only
  split
  · left
    rfl
  · split
    · left
      rfl
    · split
      · left
        rfl
      · rename_i ids hquery
        split
        · left
          rfl
        · split
          · left
            rfl
          · rename_i hlen
            split
            · left
              rfl
            · rename_i t heq
              unfold update_metadata_cache_timestamp at heq
              split at heq
              · simp at heq
              · rename_i t0 hbw
                right
                refine ⟨t0, ids, hbw, hquery, hlen, ?_⟩
                simp only [Except.ok.injEq] at heq
                dsimp only
                rw [← heq]

theorem execOp_wf_ck (k : String) (w : World) (op : RunOp) (hw : wfClock w = true) :
    wfClock (execOp w op) = true ∧
    ckLE (select_metadata_cache_timestamp w.bws k)
      (select_metadata_cache_timestamp (execOp w op).bws k) ∧
    (¬ (select_metadata_cache_timestamp (execOp w op).bws k
        = select_metadata_cache_timestamp w.bws k) → advancesCheckpoint op k) := by
  cases op with
  | advanceClock d =>
    obtain ⟨h1, h2, h3⟩ :=
      wf_ck_unchanged k w { w with clock := w.clock + d } hw rfl (Nat.le_add_right _ _)
    exact ⟨h1, h2, fun hne => absurd h3 hne⟩
  | full key reqs rows dur =>
    simp only [execOp]
    have hclock := create_clock_ge key w reqs rows dur
    rcases create_bws_cases key w reqs rows dur with hb | ⟨t, hbw, hreq, hb⟩
    · obtain ⟨h1, h2, h3⟩ :=
        wf_ck_unchanged k w (create_metadata_cache key w reqs rows dur).world hw hb hclock
      exact ⟨h1, h2, fun hne => absurd h3 hne⟩
    · have hwt : ∀ p ∈ t, p.2 ≤ w.clock := (wfClock_some hbw).mp hw
      have hck := ck_upsert k key t w.clock w.clock hwt (Nat.le_refl _)
      refine ⟨?_, ?_, ?_⟩
      · rw [wfClock_some hb]
        exact fun p hp =>
          Nat.le_trans (upsert_values_le hwt (Nat.le_refl _) p hp) hclock
      · rw [hbw, hb, select_some t k, select_some (upsert t key w.clock) k]
        exact hck.1
      · intro hne
        rw [hbw, hb, select_some t k, select_some (upsert t key w.clock) k] at hne
        exact ⟨hck.2 hne, hreq⟩
  | incr key dr qr bs =>
    simp only [execOp]
    have hclock : w.clock ≤ (incremental_update_metadata_cache key w dr qr bs).world.clock := by
      rw [incr_clock key w dr qr bs]
    rcases incr_bws_cases key w dr qr bs with hb | ⟨t, ids, hbw, hquery, hlen, hb⟩
    · obtain ⟨h1, h2, h3⟩ :=
        wf_ck_unchanged k w (incremental_update_metadata_cache key w dr qr bs).world hw hb hclock
      exact ⟨h1, h2, fun hne => absurd h3 hne⟩
    · have hwt : ∀ p ∈ t, p.2 ≤ w.clock := (wfClock_some hbw).mp hw
      have hck := ck_upsert k key t w.clock w.clock hwt (Nat.le_refl _)
      refine ⟨?_, ?_, ?_⟩
      · rw [wfClock_some hb]
        exact fun p hp =>
          Nat.le_trans (upsert_values_le hwt (Nat.le_refl _) p hp) hclock
      · rw [hbw, hb, select_some t k, select_some (upsert t key w.clock) k]
        exact hck.1
      · intro hne
        rw [hbw, hb, select_some t k, select_some (upsert t key w.clock) k] at hne
        refine ⟨hck.2 hne, ids, hquery, fun hnil => hlen ?_⟩
        rw [hnil]
        rfl

theorem execOps_wf_ck (k : String) (ops : List RunOp) (w : World)
    (hw : wfClock w = true) :
    wfClock (execOps w ops) = true ∧
    ckLE (select_metadata_cache_timestamp w.bws k)
      (select_metadata_cache_timestamp (execOps w ops).bws k) := by
  induction ops generalizing w with
  | nil => exact ⟨hw, ckLE_refl _⟩
  | cons op ops ih =>
    obtain ⟨h1, h2, _⟩ := execOp_wf_ck k w op hw
    obtain ⟨h3, h4⟩ := ih (execOp w op) h1
    exact ⟨h3, ckLE_trans h2 h4⟩

/-- Claim C4: Across any sequence of full builds and incremental runs, the
stored checkpoint for a given key never decreases (under the invariant that
every stored checkpoint is a past clock reading), and one run changes the
stored checkpoint only if it is a full build whose required tables all exist
or an incremental run whose dirty-id query returned at least one id —
`advanceClock` and every early-return path leave it untouched. -/
theorem checkpoint_monotone_and_advance_conditions (k : String) (w : World)
    (ops : List RunOp) (op : RunOp) (hw : wfClock w = true) :
    (wfClock (execOps w ops) = true ∧
      ckLE (select_metadata_cache_timestamp w.bws k)
        (select_metadata_cache_timestamp (execOps w ops).bws k)) ∧
    (¬ (select_metadata_cache_timestamp (execOp w op).bws k
        = select_metadata_cache_timestamp w.bws k) → advancesCheckpoint op k) :=
  ⟨execOps_wf_ck k ops w hw, (execOp_wf_ck k w op hw).2.2⟩

theorem checkpoint_monotone_and_advance_conditions_witness :
    wfClock world1 = true ∧
    ((wfClock (execOps world1 opsW) = true ∧
      ckLE (select_metadata_cache_timestamp world1.bws
              "blog_cache_last_update_timestamp")
        (select_metadata_cache_timestamp (execOps world1 opsW).bws
              "blog_cache_last_update_timestamp")) ∧
    (¬ (select_metadata_cache_timestamp
          (execOp world1 (RunOp.advanceClock 1)).bws
            "blog_cache_last_update_timestamp"
        = select_metadata_cache_timestamp world1.bws
            "blog_cache_last_update_timestamp") →
      advancesCheckpoint (RunOp.advanceClock 1) "blog_cache_last_update_timestamp")) :=
  ⟨by decide,
    checkpoint_monotone_and_advance_conditions "blog_cache_last_update_timestamp"
      world1 opsW (RunOp.advanceClock 1) (by decide)⟩

/-- Claim C1: During an incremental refresh of blog id 1 (title "hello"), the
completed batch's delete statement receives the title-column values, not the
id values of the rows inserted in that batch: the code extracts `row[2]` from
the tuple `(last_updated, id, title, ...)`, so the spec's claim that the
delete-key set equals the inserted-id set fails at this input. -/
theorem update_dirty_batch_delete_keys_are_titles :
    deletedKeyLists (BlogCache.update_dirty_cache_items 5 3 [1] [blogRow1]).events
        = [[Value.str "hello"]] ∧
    insertedIdLists (BlogCache.update_dirty_cache_items 5 3 [1] [blogRow1]).events
        = [[Value.int 1]] ∧
    ¬ ([Value.str "hello"] = [Value.int 1]) := by
  decide

/-- Claim C2: the at-most-one-row-per-id property is not preserved by the
delete-then-insert step, because the delete is keyed by titles (see C1).
With dirty ids 5 and 8, both still present in the source, batch size 1, and
the title of blog 8 being the numeric string "5", the run completes with no
exception and no database error — yet the fresh row for id 5, committed by
the first batch, is deleted again by the second batch's title-keyed delete,
leaving zero rows for dirty id 5 instead of exactly one.  At the C1 input
(a non-numeric title) the delete statement itself errors on the integer
coercion, the open transaction is rolled back, and only the stale row
survives: in neither case does the step deliver exactly one fresh row per
dirty id. -/
theorem update_dirty_completed_run_loses_dirty_id :
    ((BlogCache.update_dirty_cache_items 9 1 [5, 8] [blogRowA, blogRowB]).err
        = none ∧
     (execEvents [] (BlogCache.update_dirty_cache_items 9 1 [5, 8]
        [blogRowA, blogRowB]).events).2 = none ∧
     ((execEvents [] (BlogCache.update_dirty_cache_items 9 1 [5, 8]
        [blogRowA, blogRowB]).events).1.filter
          (fun r => idColumn r = Value.int 5)).length = 0 ∧
     ¬ (((execEvents [] (BlogCache.update_dirty_cache_items 9 1 [5, 8]
        [blogRowA, blogRowB]).events).1.filter
          (fun r => idColumn r = Value.int 5)).length = 1)) ∧
    ((execEvents [cachedRow1] (BlogCache.update_dirty_cache_items 5 3 [1]
        [blogRow1]).events).2 = some DbError.invalidTextRepresentation ∧
     (execEvents [cachedRow1] (BlogCache.update_dirty_cache_items 5 3 [1]
        [blogRow1]).events).1 = [cachedRow1]) := by
  decide

/-- Claim C3: When the computed dirty-id set is empty, the incremental run does
not terminate cleanly: `update_dirty_cache_items` is invoked before the
empty-set check, and its final progress log computes
`100 * count / total_rows` with `total_rows = 0`, raising a
ZeroDivisionError.  The run does perform zero writes and leaves the world
(checkpoint included) unchanged, but it ends in an exception. -/
theorem incremental_empty_dirty_set_raises_zero_division :
    (incremental_update_metadata_cache "blog_cache_last_update_timestamp"
        world1 (.ok []) [] 5000).err = some RunError.zeroDivision ∧
    (incremental_update_metadata_cache "blog_cache_last_update_timestamp"
        world1 (.ok []) [] 5000).events.all (fun e => ¬ (isWriteEvent e = true)) ∧
    (incremental_update_metadata_cache "blog_cache_last_update_timestamp"
        world1 (.ok []) [] 5000).world = world1 := by
  decide

/-- The stateful single pass implementing `re.sub(r"\s+", "-", ·)` agrees
with the spec-side run-collapsing recursion, in both run states. -/
theorem reSubWsAux_eq_collapseRuns (l : List Char) :
    reSubWsAux false l = collapseRuns l ∧
    reSubWsAux true l = collapseRuns (l.dropWhile (fun x => isPySpace x)) := by
  induction l with
  | nil => simp [reSubWsAux, collapseRuns]
  | cons c cs ih =>
    by_cases h : isPySpace c = true
    · refine ⟨?_, ?_⟩
      · simp only [reSubWsAux, collapseRuns, h, if_true, Bool.false_eq_true, if_false]
        exact congrArg (List.cons '-') ih.2
      · simp only [reSubWsAux, h, if_true, List.dropWhile_cons, ite_true]
        exact ih.2
    · simp only [Bool.not_eq_true] at h
      refine ⟨?_, ?_⟩
      · simp only [reSubWsAux, collapseRuns, h, Bool.false_eq_true, if_false]
        exact congrArg (List.cons c) ih.1
      · simp only [reSubWsAux, collapseRuns, h, Bool.false_eq_true, if_false,
          List.dropWhile_cons]
        exact congrArg (List.cons c) ih.1

/-- Claim C5: A full build whose required tables all exist writes as the new
checkpoint the timestamp captured before the build runs (the clock value at
entry), not the completion time: the write event follows the build event,
the stored value is the pre-run clock, and the completion clock is strictly
later whenever the build took time. -/
theorem full_build_writes_pre_run_timestamp (key : String) (w : World)
    (t : List (String × Nat)) (reqs : List Bool) (rows : List (List Value))
    (dur : Nat) (hreq : reqs.all (fun b => b) = true) (hb : w.bws = some t) :
    (create_metadata_cache key w reqs rows dur).events
      = [Event.captureTimestamp w.clock, Event.runFullBuild,
         Event.writeCheckpoint key w.clock] ∧
    select_metadata_cache_timestamp
        (create_metadata_cache key w reqs rows dur).world.bws key
      = some w.clock ∧
    (create_metadata_cache key w reqs rows dur).world.clock = w.clock + dur ∧
    (0 < dur →
      ¬ (w.clock = (create_metadata_cache key w reqs rows dur).world.clock)) := by
  unfold create_metadata_cache update_metadata_cache_timestamp
  rw [if_pos hreq]
  dsimp only
  rw [hb]
  dsimp only
  refine ⟨rfl, ?_, rfl, ?_⟩
  · rw [select_some]
    exact findValue_upsert_self t key w.clock
  · intro hd
    omega

theorem full_build_writes_pre_run_timestamp_witness :
    (create_metadata_cache "blog_cache_last_update_timestamp" world1 [true] [] 7).events
      = [Event.captureTimestamp world1.clock, Event.runFullBuild,
         Event.writeCheckpoint "blog_cache_last_update_timestamp" world1.clock] ∧
    select_metadata_cache_timestamp
        (create_metadata_cache "blog_cache_last_update_timestamp"
          world1 [true] [] 7).world.bws "blog_cache_last_update_timestamp"
      = some world1.clock ∧
    (create_metadata_cache "blog_cache_last_update_timestamp"
        world1 [true] [] 7).world.clock = world1.clock + 7 ∧
    (0 < 7 →
      ¬ (world1.clock = (create_metadata_cache "blog_cache_last_update_timestamp"
          world1 [true] [] 7).world.clock)) :=
  full_build_writes_pre_run_timestamp "blog_cache_last_update_timestamp" world1
    [("blog_cache_last_update_timestamp", 42)] [true] [] 7 (by decide) (by decide)

/-- Claim C6: Reading the checkpoint returns absent both when the
`background_worker_state` table does not exist and when it holds no row for
the key, and in either absent case the incremental run returns immediately:
its result is the unchanged world with only a log line — no dirty-id query,
no cache-table mutation, no checkpoint write, no exception, and no fallback
full rebuild. -/
theorem absent_checkpoint_reads_none_and_incremental_returns
    (key : String) (t : List (String × Nat)) (w : World)
    (tbl : List (List Value)) (dr : Except PgError (List Int))
    (qr : List BlogRow) (bs : Nat)
    (hrow : findValue key t = none)
    (hct : w.cacheTable = some tbl)
    (hsel : select_metadata_cache_timestamp w.bws key = none) :
    select_metadata_cache_timestamp none key = none ∧
    select_metadata_cache_timestamp (some t) key = none ∧
    incremental_update_metadata_cache key w dr qr bs
      = ⟨w, [Event.logMessage], none⟩ := by
  refine ⟨rfl, ?_, ?_⟩
  · rw [select_some]
    exact hrow
  · unfold incremental_update_metadata_cache
    rw [hct]
    dsimp only
    rw [hsel]

theorem absent_checkpoint_witness :
    select_metadata_cache_timestamp none "blog_cache_last_update_timestamp" = none ∧
    select_metadata_cache_timestamp (some [("other_key", 5)])
        "blog_cache_last_update_timestamp" = none ∧
    incremental_update_metadata_cache "blog_cache_last_update_timestamp"
        worldOtherKey (.ok [1]) [blogRow1] 3
      = ⟨worldOtherKey, [Event.logMessage], none⟩ :=
  absent_checkpoint_reads_none_and_incremental_returns
    "blog_cache_last_update_timestamp" [("other_key", 5)] worldOtherKey
    [cachedRow1] (.ok [1]) [blogRow1] 3 (by decide) (by decide) (by decide)

/-- Claim C7, counterexample: The claim says every execution failure of the
dirty-id query is caught and turned into the empty set; a failure of class
`UndefinedTable` (a `ProgrammingError`, not an `OperationalError`) is not
caught and propagates instead of yielding the empty set. -/
theorem non_operational_dirty_query_error_propagates :
    BlogCache.query_last_updated_items (.error .undefinedTable)
      = .error PgError.undefinedTable ∧
    ¬ (BlogCache.query_last_updated_items (.error .undefinedTable)
      = .ok ([] : List Int)) := by
  refine ⟨rfl, fun hx => ?_⟩
  simp [BlogCache.query_last_updated_items] at hx

/-- Claim C7, amended: Only `psycopg2.errors.OperationalError` is caught by the
dirty-id detection: on that class the query returns the empty set and the
incremental run proceeds exactly as if zero dirty ids had been found, while
every other error class propagates out of `query_last_updated_items`. -/
theorem operational_dirty_query_error_empty_set (w : World) (key : String)
    (bs : Nat) (e : PgError) (h : ¬ (e = PgError.operational)) :
    BlogCache.query_last_updated_items (.error .operational) = .ok [] ∧
    incremental_update_metadata_cache key w (.error .operational) [] bs
      = incremental_update_metadata_cache key w (.ok []) [] bs ∧
    BlogCache.query_last_updated_items (.error e) = .error e := by
  refine ⟨rfl, rfl, ?_⟩
  cases e with
  | operational => exact absurd rfl h
  | undefinedTable => rfl
  | otherProgramming => rfl

theorem operational_dirty_query_error_empty_set_witness :
    BlogCache.query_last_updated_items (.error .operational) = .ok [] ∧
    incremental_update_metadata_cache "blog_cache_last_update_timestamp"
        world1 (.error .operational) [] 3
      = incremental_update_metadata_cache "blog_cache_last_update_timestamp"
        world1 (.ok []) [] 3 ∧
    BlogCache.query_last_updated_items (.error .undefinedTable)
      = .error PgError.undefinedTable :=
  operational_dirty_query_error_empty_set world1
    "blog_cache_last_update_timestamp" 3 PgError.undefinedTable (by decide)

/-- Claim C9: If any required table is flagged missing at full-build time, the
build returns after only a log line: the world — cache table and checkpoint
store alike — is unchanged, no build runs, and no exception escapes. -/
theorem full_build_missing_required_table_no_op (key : String) (w : World)
    (reqs : List Bool) (rows : List (List Value)) (dur : Nat)
    (h : false ∈ reqs) :
    create_metadata_cache key w reqs rows dur
      = ⟨w, [Event.logMessage], none⟩ := by
  have hall : ¬ (reqs.all (fun b => b) = true) := by
    intro hx
    have hfx := List.all_eq_true.mp hx false h
    simp at hfx
  unfold create_metadata_cache
  rw [if_neg hall]

theorem full_build_missing_required_table_no_op_witness :
    create_metadata_cache "blog_cache_last_update_timestamp" world1
        [true, false] [] 7
      = ⟨world1, [Event.logMessage], none⟩ :=
  full_build_missing_required_table_no_op "blog_cache_last_update_timestamp"
    world1 [true, false] [] 7 (by decide)

theorem categoriesColumn_create (row : BlogRow) :
    categoriesColumn (BlogCache.create_json_data row)
      = optStr (row.categories.map fun cats =>
          ujsonDumpsCategories (fun t => BlogCache._create_slug t none) cats) := rfl

/-- Claim C10: A source row whose categories field is absent gets a NULL
categories column — in particular never any JSON string, so never the empty
array — while a present categories list yields the JSON array of
`{"id": .., "name": .., "slug": ..}` objects, the slug derived from the
category name. -/
theorem blog_categories_null_vs_json (row : BlogRow) :
    (row.categories = none →
      categoriesColumn (BlogCache.create_json_data row) = Value.null ∧
      ∀ s, ¬ (categoriesColumn (BlogCache.create_json_data row) = Value.str s)) ∧
    (∀ cats, row.categories = some cats →
      categoriesColumn (BlogCache.create_json_data row)
        = Value.str ("[" ++ String.intercalate ","
            (cats.map (fun cat =>
              "\x7b\"id\":" ++ toString cat.id ++ ",\"name\":\"" ++
                jsonEscape cat.name ++ "\",\"slug\":\"" ++
                jsonEscape (BlogCache._create_slug cat.name none) ++ "\"\x7d"))
            ++ "]")) := by
  constructor
  · intro h
    rw [categoriesColumn_create, h]
    exact ⟨rfl, fun s => by simp [optStr]⟩
  · intro cats h
    rw [categoriesColumn_create, h]
    rfl

theorem blog_categories_null_vs_json_witness :
    categoriesColumn (BlogCache.create_json_data blogRow1) = Value.null ∧
    categoriesColumn (BlogCache.create_json_data blogRowCats)
      = Value.str "[\x7b\"id\":2,\"name\":\"Ai News\",\"slug\":\"ai-news\"\x7d]" := by
  refine ⟨((blog_categories_null_vs_json blogRow1).1 rfl).1, ?_⟩
  have h := (blog_categories_null_vs_json blogRowCats).2
    [{ id := 2, name := "Ai News" }] rfl
  rw [h]
  decide

/-- Claim C8, counterexample: The claim says every adapter's slug strips `?`;
the company adapter's `_create_slug` has no `.replace("?", "")` step, so
"What Is AI?" maps to "what-is-ai?", not "what-is-ai". -/
theorem company_slug_keeps_question_mark :
    CompanyCache._create_slug "What Is AI?" none = "what-is-ai?" ∧
    ¬ (CompanyCache._create_slug "What Is AI?" none = "what-is-ai") := by
  decide

/-- Claim C8, amended: For the blog and post adapters, `_create_slug` with no id
realises the spec contract — lowercase, strip `?`, collapse whitespace runs
to single hyphens — and in particular maps "What Is AI?" to "what-is-ai";
the company adapter only lowercases and collapses whitespace, keeping `?`. -/
theorem blog_post_slug_contract (text : String) :
    BlogCache._create_slug text none = slug_contract text ∧
    PostCache._create_slug text none = slug_contract text ∧
    CompanyCache._create_slug text none
      = String.mk (collapseRuns (text.data.map Char.toLower)) ∧
    BlogCache._create_slug "What Is AI?" none = "what-is-ai" := by
  refine ⟨?_, ?_, ?_, by decide⟩ <;>
    simp [BlogCache._create_slug, PostCache._create_slug, CompanyCache._create_slug,
      slug_contract, reSubWs, (reSubWsAux_eq_collapseRuns _).1]

end CachePipeline
